import Mathlib

/-!
Verification of the archive extractor and crawl engine of the
`ds4300-final-project` repository.

The development shallowly embeds the Python sources:

* `src/wiki/reader.py` — the `MWParser` streaming document scanner
  (`handle_starttag`, `handle_data`, `handle_endtag`), the byte-range
  extraction `extract_indexed_range`, and `retrieve_article_xml`;
* `src/data_stores/sqlite/__init__.py` — `parse_colons` and the
  `byte_dict` end-offset computation of the index builder;
* `src/search/__main__.py` — the crawl loop (seeding, per-link
  classification, counter, graph registration, queue).

External collaborators (the redis classification cache, the neo4j graph
store, the HTML tokenizer, the bz2 decompressor) are modelled as abstract
parameters, exactly at the call boundaries the Python code uses.
-/

/- ============================================================ -/
/- Streaming document scanner: `WikipediaArchiveSearcher.MWParser` -/
/- ============================================================ -/

/-- A tag-stream event, as delivered by `html.parser.HTMLParser` to the
`MWParser` callbacks: a start tag with its attribute list, a literal text
chunk, or an end tag.  (`stop` stands for the end-tag event, since `end`
is a Lean keyword.) -/
inductive Ev where
  | start (tag : String) (attrs : List (String × String))
  | text (data : String)
  | stop (tag : String)
deriving DecidableEq, Repr

/-- The mutable state of an `MWParser` instance: the target id `true_id`,
the candidate id `observed_id`, the accumulated `lines`, the
`curr_tag_id` flag, and the snapshot `final_lines`. -/
structure MWState where
  true_id : String
  observed_id : Option String
  lines : List String
  curr_tag_id : Bool
  final_lines : List String
deriving DecidableEq, Repr

/-- Re-serialization of a start tag, mirroring the `line_components`
construction in `MWParser.handle_starttag`. -/
def serializeStart (tag : String) (attrs : List (String × String)) : String :=
  "<" ++ tag ++ String.join (attrs.map fun p => " " ++ p.1 ++ "=\"" ++ p.2 ++ "\"") ++ ">"

/-- Python `str` applied to `observed_id`, which may be `None`. -/
def pyStr (o : Option String) : String :=
  match o with
  | none => "None"
  | some v => v

/-- Embedding of `MWParser.handle_starttag`. -/
def handle_starttag (s : MWState) (tag : String) (attrs : List (String × String)) : MWState :=
  if s.final_lines = [] then
    let s1 :=
      if tag = "page" then { s with observed_id := none, lines := [], curr_tag_id := false }
      else if tag = "id" then { s with curr_tag_id := true }
      else s
    { s1 with lines := s1.lines ++ [serializeStart tag attrs] }
  else s

/-- Embedding of `MWParser.handle_data`. -/
def handle_data (s : MWState) (data : String) : MWState :=
  if s.final_lines = [] then
    let s1 := { s with lines := s.lines ++ [data] }
    if s1.curr_tag_id ∧ s1.observed_id = none then { s1 with observed_id := some data } else s1
  else s

/-- Embedding of `MWParser.handle_endtag`. -/
def handle_endtag (s : MWState) (tag : String) : MWState :=
  if s.final_lines = [] then
    let s1 := { s with lines := s.lines ++ ["</" ++ tag ++ ">"] }
    let s2 := if tag = "id" then { s1 with curr_tag_id := false } else s1
    if tag = "page" ∧ pyStr s2.observed_id = s2.true_id then { s2 with final_lines := s2.lines }
    else s2
  else s

/-- Dispatch of one tokenizer event to the matching `MWParser` callback. -/
def MWstep (s : MWState) : Ev → MWState
  | .start t a => handle_starttag s t a
  | .text d => handle_data s d
  | .stop t => handle_endtag s t

/-- Embedding of `MWParser.feed`: the tokenizer drives the three callbacks
over the event stream in order. -/
def MWfeed (s : MWState) (evs : List Ev) : MWState := evs.foldl MWstep s

/-- Embedding of `MWParser.__init__(id)`. -/
def MWinit (id : String) : MWState :=
  { true_id := id, observed_id := none, lines := [], curr_tag_id := false, final_lines := [] }

/-- Serialization of one event exactly as the scanner appends it to
`self.lines`. -/
def serializeEv : Ev → String
  | .start t a => serializeStart t a
  | .text d => d
  | .stop t => "</" ++ t ++ ">"

/-- The lines the scanner accumulates for a list of events. -/
def reserialize (evs : List Ev) : List String := evs.map serializeEv

/-- A tagged document of the container format: a `page` wrapper whose
first `id` field carries the document identifier.  `pre` is the material
before the identifier field (e.g. `title`, `ns`), `post` the material
after it (e.g. a `revision` subtree, which may contain further `id`
fields). -/
structure Page where
  attrs : List (String × String)
  pre : List Ev
  idAttrs : List (String × String)
  id : String
  post : List Ev
deriving DecidableEq, Repr

/-- The event stream of one tagged document. -/
def Page.events (p : Page) : List Ev :=
  Ev.start "page" p.attrs ::
    (p.pre ++ (Ev.start "id" p.idAttrs :: Ev.text p.id :: Ev.stop "id" ::
      (p.post ++ [Ev.stop "page"])))

/-- An event allowed strictly inside a document: anything but a
document-boundary (`page`) tag. -/
def Ev.okInner : Ev → Bool
  | .start t _ => t != "page"
  | .stop t => t != "page"
  | .text _ => true

/-- An event allowed before the document's identifier field: no
document-boundary tag and no `id` start tag (the first `id` field of the
document is the one carrying the identifier). -/
def Ev.okPre : Ev → Bool
  | .start t _ => t != "page" && t != "id"
  | .stop t => t != "page"
  | .text _ => true

/-- Well-formedness of a tagged document: its interior contains no nested
document boundary, and its identifier field is the first `id` field. -/
def Page.Wf (p : Page) : Prop :=
  p.pre.all Ev.okPre = true ∧ p.post.all Ev.okInner = true

instance (p : Page) : Decidable p.Wf := by
  unfold Page.Wf
  infer_instance

/-- The event stream of a decompressed block holding the concatenation of
a list of tagged documents. -/
def blockEvents (ps : List Page) : List Ev := (ps.map Page.events).flatten

/- ============================================================ -/
/- Index-listing parsing: `parse_colons` (src/data_stores/sqlite) -/
/- ============================================================ -/

/-- Model of Python `s.split(sep)` for a one-character separator, over the
character list of the string. -/
def pySplit (c : Char) : List Char → List (List Char)
  | [] => [[]]
  | x :: xs =>
    match pySplit c xs with
    | [] => [[]]
    | h :: t => if x = c then [] :: h :: t else (x :: h) :: t

/-- Embedding of `parse_colons`: split on ":", return the first two
portions and the slice of `s` past the first two colons
(`s[len(p0)+len(p1)+2 : len(s)]`). -/
def parse_colons (s : List Char) : List (List Char) :=
  let portions := pySplit ':' s
  [portions.getD 0 [], portions.getD 1 [],
    s.drop ((portions.getD 0 []).length + (portions.getD 1 []).length + 2)]

/-- Re-joining a split with the separator, used to state that
`parse_colons` loses nothing. -/
def rejoinSep (c : Char) : List (List Char) → List Char
  | [] => []
  | [h] => h
  | h :: hs :: t => h ++ c :: rejoinSep c (hs :: t)

/- ============================================================ -/
/- Byte-range extraction: `extract_indexed_range` (src/wiki/reader.py) -/
/- ============================================================ -/

/-- Model of `file.read(n)` on a binary file handle positioned at the
head of `contents`: `n = -1` reads to end-of-file, `n < -1` raises
`ValueError` (CPython: read length must be non-negative or -1), and
`n ≥ 0` reads `min n (length contents)` bytes.  Returns the bytes read
and the remaining contents. -/
def fileRead (contents : List Nat) (n : Int) : Except Unit (List Nat × List Nat) :=
  if n = -1 then .ok (contents, [])
  else if n < 0 then .error ()
  else .ok (contents.take n.toNat, contents.drop n.toNat)

/-- Embedding of `WikipediaArchiveSearcher.extract_indexed_range`: read
and discard the first `start_index` bytes, read `end_index - start_index`
further bytes, and decompress the bytes of that second read.  The bz2
decompressor is an external collaborator, passed as `decompress`. -/
def extract_indexed_range (decompress : List Nat → String) (archive : List Nat)
    (start_index end_index : Int) : Except Unit String := do
  let r1 ← fileRead archive start_index
  let r2 ← fileRead r1.2 (end_index - start_index)
  pure (decompress r2.1)

/-- One row of the sqlite `pages` table as `retrieve_article_xml`
unpacks it: `start_index, page_id, title, end_index`. -/
structure Row where
  start_index : Int
  page_id : String
  title : String
  end_index : Int
deriving DecidableEq, Repr

/-- The errors `retrieve_article_xml` can raise: its own
`ArticleNotFoundError(title)`, or the `ValueError` escaping from the
negative-length file read. -/
inductive RetrieveErr where
  | notFound (title : String)
  | valueError
deriving DecidableEq, Repr

/-- Embedding of `WikipediaArchiveSearcher.retrieve_article_xml`: select
the rows whose title matches, raise `ArticleNotFoundError` on zero rows,
take the first row otherwise, extract and decompress its byte range, feed
the block through a fresh `MWParser` keyed by the row's `page_id`, and
return the join of the parser's `final_lines`.  The HTML tokenizer that
turns the block into callback events is external, passed as `tokenize`. -/
def retrieve_article_xml (decompress : List Nat → String) (tokenize : String → List Ev)
    (archive : List Nat) (rows : List Row) (title : String) : Except RetrieveErr String :=
  match rows.filter (fun r => r.title = title) with
  | [] => .error (.notFound title)
  | r :: _ =>
    match extract_indexed_range decompress archive r.start_index r.end_index with
    | .error _ => .error .valueError
    | .ok xml_block =>
      .ok (String.join (MWfeed (MWinit r.page_id) (tokenize xml_block)).final_lines)

/- ============================================================ -/
/- Index builder end offsets: `byte_dict` (src/data_stores/sqlite) -/
/- ============================================================ -/

/-- Python `<` on strings: lexicographic comparison of the code-point
sequences. -/
def pyStrLtChars : List Char → List Char → Bool
  | [], [] => false
  | [], _ :: _ => true
  | _ :: _, [] => false
  | a :: as, b :: bs =>
    if a.val < b.val then true
    else if b.val < a.val then false
    else pyStrLtChars as bs

/-- Python `<=` on strings, via `a <= b ↔ not (b < a)`. -/
def pyStrLe (a b : String) : Bool := !(pyStrLtChars b.data a.data)

/-- Model of Python `list.sort()` on strings (ascending lexicographic
order on code points), as stable insertion sort; the input is
duplicate-free (it comes from `set(...)`), so any correct ascending sort
yields this result. -/
def insertSorted (x : String) : List String → List String
  | [] => [x]
  | y :: ys => if pyStrLe x y then x :: y :: ys else y :: insertSorted x ys

/-- Python `byte_values.sort()` applied after `list(set(...))`. -/
def pySort (l : List String) : List String := l.foldr insertSorted []

/-- Embedding of the `byte_dict` loop of the index builder: each sorted
byte string maps to the next one in sort order, and the last (whose
computed successor equals itself) maps to the read-to-end sentinel `-1`,
modelled as `none`. -/
def byte_dict : List String → List (String × Option String)
  | [] => []
  | [x] => [(x, none)]
  | x :: y :: rest => (x, some y) :: byte_dict (y :: rest)

/-- The whole end-offset computation of the index builder: dedup the
first-byte strings (`set`), sort them (`list.sort`), build `byte_dict`,
and append each row's end offset (`row.append(byte_dict[row[0]])`). -/
def build_end_offsets (rows : List (String × String × String)) :
    List (String × String × String × Option String) :=
  let sd := pySort ((rows.map fun r => r.1).dedup)
  let bd := byte_dict sd
  rows.map fun r => (r.1, r.2.1, r.2.2, ((bd.lookup r.1).getD none))

/- ============================================================ -/
/- Crawl engine: the loop of `src/search/__main__.py` -/
/- ============================================================ -/

/-- The external collaborators of the crawl loop, at exactly the call
boundaries `src/search/__main__.py` uses.  `α` is the type of link
(article) values, `ν` the type of graph-store node handles, `γ` the graph
store's state, `ρ` the classification cache's state.

* `retrieveClass` — `cache.retrieve_classification(link)` (line 51);
* `retrieveOutcome` — the body of the `try` block (lines 58-59):
  `retrieve_article_xml(link)` followed by a second
  `cache.retrieve_classification(link)`.  It returns the cache state
  afterwards and `none` when any exception was raised inside the block,
  otherwise `some` of the second lookup's verdict;
* `addNode` — `ArticleNode.add_node(link)` (get-or-create, returns the
  handle);
* `links` — `node.article.outgoing_links`, `none` modelling Python
  `None`. -/
structure CrawlEnv (α ν γ ρ : Type) where
  retrieveClass : ρ → α → Option Bool
  retrieveOutcome : ρ → α → ρ × Option (Option Bool)
  addNode : γ → α → γ × ν
  links : ν → Option (List α)

/-- The mutable state of the crawl loop: the cache and graph store
states, the `counter`, the `search_queue`, the edges registered so far
(in registration order), and the current binding of the Python variable
`child_node` (`none` while it is still unbound). -/
structure LoopState (ν γ ρ : Type) where
  cache : ρ
  graph : γ
  counter : Nat
  queue : List ν
  edges : List (ν × ν)
  childNode : Option ν

/-- Embedding of the body of `for linked_article in links` (lines 49-70
of `src/search/__main__.py`) for one link `l` of the dequeued node `cur`.
`Except.error ()` models an uncaught `NameError`: the cached-positive
branch evaluates `child_node`, which is only ever assigned in the
freshly-classified-positive branch.  The Python truthiness of
`link_is_musical_artist` (which may be `None` after a retrieval that did
not populate the cache) maps `none` to `false`. -/
def processLink {α ν γ ρ : Type} (env : CrawlEnv α ν γ ρ) (cur : ν)
    (s : LoopState ν γ ρ) (l : α) : Except Unit (LoopState ν γ ρ) :=
  match env.retrieveClass s.cache l with
  | some v =>
    if v then
      match s.childNode with
      | none => .error ()
      | some c => .ok { s with edges := s.edges ++ [(cur, c)], queue := s.queue ++ [c] }
    else .ok s
  | none =>
    let out := env.retrieveOutcome s.cache l
    let verdict : Bool := (out.2.getD none).getD false
    let counter1 := s.counter + (if verdict then 1 else 0)
    if verdict then
      let an := env.addNode s.graph l
      .ok { cache := out.1, graph := an.1, counter := counter1,
            queue := s.queue ++ [an.2], edges := s.edges ++ [(cur, an.2)],
            childNode := some an.2 }
    else .ok { s with cache := out.1, counter := counter1 }

/-- The whole `for linked_article in links` loop over a dequeued node's
link list: links are processed left to right, an uncaught exception
aborts the run. -/
def processLinks {α ν γ ρ : Type} (env : CrawlEnv α ν γ ρ) (cur : ν)
    (s : LoopState ν γ ρ) (links : List α) : Except Unit (LoopState ν γ ρ) :=
  links.foldlM (processLink env cur) s

/-- Embedding of the `while not len(search_queue) == 0 and continue_search`
loop: pop the front node, skip it when its `outgoing_links` is `None`,
otherwise process its links and re-evaluate `continue_search = counter < 150`.
Recursion is bounded by explicit `fuel`; running out of fuel returns the
state reached so far. -/
def runLoop {α ν γ ρ : Type} (env : CrawlEnv α ν γ ρ) :
    Nat → LoopState ν γ ρ → Bool → Except Unit (LoopState ν γ ρ × Bool)
  | 0, s, cont => .ok (s, cont)
  | fuel + 1, s, cont =>
    match s.queue with
    | [] => .ok (s, cont)
    | n :: rest =>
      if cont then
        match env.links n with
        | none => runLoop env fuel { s with queue := rest } cont
        | some ls =>
          match processLinks env n { s with queue := rest } ls with
          | .error e => .error e
          | .ok s2 => runLoop env fuel s2 (decide (s2.counter < 150))
      else .ok (s, cont)

/-- Embedding of the seed loop (lines 19-22 of `src/search/__main__.py`):
`for artist in [SEED_LIST[0:2]]` iterates over the singleton list whose
only element is the slice of the first two seeds, and each iteration
appends one `ArticleNode.add_node(artist)` result to the queue.  The node
constructor is abstract (`addNodeL`); its argument is the whole loop
variable, a list of seeds. -/
def seedPhase {α ν : Type} (addNodeL : List α → ν) (seedList : List α) : List ν :=
  ([seedList.take 2]).map addNodeL

/- ============================================================ -/
/- Lemmas about `pySplit` and `parse_colons` -/
/- ============================================================ -/

lemma pySplit_ne_nil (c : Char) (l : List Char) : pySplit c l ≠ [] := by
  induction l with
  | nil => simp [pySplit]
  | cons x xs ih =>
    cases hx : pySplit c xs with
    | nil => exact absurd hx ih
    | cons hd tl =>
      by_cases hxc : x = c <;> simp [pySplit, hx, hxc]

lemma pySplit_head_no_sep (c : Char) (l : List Char) :
    ∀ h0 t, pySplit c l = h0 :: t → c ∉ h0 := by
  induction l with
  | nil =>
    intro h0 t h
    simp [pySplit] at h
    simp [h.1]
  | cons x xs ih =>
    intro h0 t h
    cases hx : pySplit c xs with
    | nil => exact absurd hx (pySplit_ne_nil c xs)
    | cons hd tl =>
      simp only [pySplit, hx] at h
      by_cases hxc : x = c
      · simp only [if_pos hxc] at h
        obtain ⟨h1, _⟩ := List.cons.injEq _ _ _ _ ▸ h
        simp [← h1]
      · simp only [if_neg hxc] at h
        obtain ⟨h1, _⟩ := List.cons.injEq _ _ _ _ ▸ h
        have hmem := ih hd tl hx
        intro hc
        rw [← h1] at hc
        rcases List.mem_cons.mp hc with h2 | h2
        · exact hxc h2.symm
        · exact hmem h2

lemma rejoinSep_pySplit (c : Char) (l : List Char) : rejoinSep c (pySplit c l) = l := by
  induction l with
  | nil => rfl
  | cons x xs ih =>
    cases hx : pySplit c xs with
    | nil => exact absurd hx (pySplit_ne_nil c xs)
    | cons hd tl =>
      rw [hx] at ih
      by_cases hxc : x = c
      · subst hxc
        simp only [pySplit, hx, if_pos rfl, rejoinSep]
        cases tl <;> simpa [rejoinSep] using ih
      · simp only [pySplit, hx, if_neg hxc]
        cases tl with
        | nil => simpa [rejoinSep] using congrArg (x :: ·) ih
        | cons a b =>
          simp only [rejoinSep] at ih ⊢
          rw [List.cons_append, ih]

lemma pySplit_length (c : Char) (l : List Char) :
    (pySplit c l).length = l.count c + 1 := by
  induction l with
  | nil => simp [pySplit]
  | cons x xs ih =>
    cases hx : pySplit c xs with
    | nil => exact absurd hx (pySplit_ne_nil c xs)
    | cons hd tl =>
      rw [hx] at ih
      by_cases hxc : x = c
      · subst hxc
        simp only [List.length_cons] at ih
        simp [pySplit, hx, List.count_cons]
        omega
      · simp only [List.length_cons] at ih
        simp [pySplit, hx, hxc, List.count_cons, Ne.symm hxc]
        omega

lemma pySplit_no_sep (c : Char) (l : List Char) :
    ∀ p ∈ pySplit c l, c ∉ p := by
  induction l with
  | nil =>
    intro p hp
    simp [pySplit] at hp
    simp [hp]
  | cons x xs ih =>
    intro p hp
    cases hx : pySplit c xs with
    | nil => exact absurd hx (pySplit_ne_nil c xs)
    | cons hd tl =>
      rw [hx] at ih
      simp only [pySplit, hx] at hp
      by_cases hxc : x = c
      · subst hxc
        simp only [if_pos rfl] at hp
        rcases List.mem_cons.mp hp with h1 | h1
        · simp [h1]
        · exact ih p h1
      · simp only [if_neg hxc] at hp
        rcases List.mem_cons.mp hp with h1 | h1
        · subst h1
          intro hc
          rcases List.mem_cons.mp hc with h2 | h2
          · exact hxc h2.symm
          · exact ih hd (List.mem_cons_self hd tl) h2
        · exact ih p (List.mem_cons_of_mem hd h1)

/-- C10: for every string with at least two colons, `parse_colons`
returns exactly three strings: the first two contain no colon, and
rejoining them around the first two colons reproduces the input, so
titles containing colons survive the index-listing parse unchanged. -/
theorem parse_colons_split_rejoin_identity (s : List Char) (h : 2 ≤ s.count ':') :
    (parse_colons s).length = 3 ∧
    ':' ∉ (parse_colons s).getD 0 [] ∧ ':' ∉ (parse_colons s).getD 1 [] ∧
    (parse_colons s).getD 0 [] ++ ':' ::
      ((parse_colons s).getD 1 [] ++ ':' :: (parse_colons s).getD 2 []) = s := by
  have hlen : 3 ≤ (pySplit ':' s).length := by
    rw [pySplit_length]
    omega
  cases hp : pySplit ':' s with
  | nil => rw [hp] at hlen; simp at hlen
  | cons p0 r0 =>
    cases r0 with
    | nil => rw [hp] at hlen; simp at hlen
    | cons p1 r1 =>
      cases r1 with
      | nil => rw [hp] at hlen; simp at hlen
      | cons p2 t =>
        have hn0 : ':' ∉ p0 := pySplit_no_sep ':' s p0 (hp ▸ List.mem_cons_self _ _)
        have hn1 : ':' ∉ p1 := by
          refine pySplit_no_sep ':' s p1 ?_
          rw [hp]
          exact List.mem_cons_of_mem _ (List.mem_cons_self _ _)
        have hre := rejoinSep_pySplit ':' s
        rw [hp] at hre
        simp only [rejoinSep] at hre
        have hdrop : s.drop (p0.length + p1.length + 2) = rejoinSep ':' (p2 :: t) := by
          rw [← hre]
          have hsplit : p0 ++ ':' :: (p1 ++ ':' :: rejoinSep ':' (p2 :: t))
              = (p0 ++ ':' :: p1 ++ [':']) ++ rejoinSep ':' (p2 :: t) := by
            simp
          rw [hsplit, List.drop_left']
          simp [List.length_append]
          omega
        refine ⟨by simp [parse_colons], ?_, ?_, ?_⟩
        · simpa [parse_colons, hp] using hn0
        · simpa [parse_colons, hp] using hn1
        · simp only [parse_colons, hp, List.getD_cons_zero, List.getD_cons_succ]
          rw [hdrop]
          exact hre

/-- Witness for C10 at the concrete index line `100:9:Anarchism:x`. -/
theorem parse_colons_split_rejoin_identity_witness :
    2 ≤ (String.toList "100:9:Anarchism:x").count ':' ∧
    (parse_colons (String.toList "100:9:Anarchism:x")).getD 0 [] ++ ':' ::
      ((parse_colons (String.toList "100:9:Anarchism:x")).getD 1 [] ++ ':' ::
        (parse_colons (String.toList "100:9:Anarchism:x")).getD 2 [])
      = String.toList "100:9:Anarchism:x" :=
  ⟨by decide, (parse_colons_split_rejoin_identity _ (by decide)).2.2.2⟩

/- ============================================================ -/
/- Lemmas about the streaming document scanner -/
/- ============================================================ -/

lemma MWfeed_nil (s : MWState) : MWfeed s [] = s := rfl

lemma MWfeed_cons (s : MWState) (e : Ev) (evs : List Ev) :
    MWfeed s (e :: evs) = MWfeed (MWstep s e) evs := rfl

lemma MWfeed_append (s : MWState) (a b : List Ev) :
    MWfeed s (a ++ b) = MWfeed (MWfeed s a) b := by
  simp [MWfeed, List.foldl_append]

lemma MWstep_done (s : MWState) (e : Ev) (h : ¬ s.final_lines = []) : MWstep s e = s := by
  cases e <;> simp [MWstep, handle_starttag, handle_data, handle_endtag, h]

lemma MWfeed_done : ∀ (evs : List Ev) (s : MWState), ¬ s.final_lines = [] → MWfeed s evs = s := by
  intro evs
  induction evs with
  | nil => intro s _; rfl
  | cons e es ih =>
    intro s h
    rw [MWfeed_cons, MWstep_done s e h]
    exact ih s h

lemma MWstep_inner (t v : String) (l : List String) (c : Bool) (e : Ev)
    (he : e.okInner = true) :
    ∃ c2, MWstep ⟨t, some v, l, c, []⟩ e = ⟨t, some v, l ++ [serializeEv e], c2, []⟩ := by
  cases e with
  | start tag a =>
    have htag : tag ≠ "page" := by simpa [Ev.okInner] using he
    by_cases hid : tag = "id"
    · subst hid
      exact ⟨true, by simp [MWstep, handle_starttag, serializeEv]⟩
    · exact ⟨c, by simp [MWstep, handle_starttag, htag, hid, serializeEv]⟩
  | text d =>
    exact ⟨c, by simp [MWstep, handle_data, serializeEv]⟩
  | stop tag =>
    have htag : tag ≠ "page" := by simpa [Ev.okInner] using he
    by_cases hid : tag = "id"
    · subst hid
      exact ⟨false, by simp [MWstep, handle_endtag, htag, serializeEv]⟩
    · exact ⟨c, by simp [MWstep, handle_endtag, htag, hid, serializeEv]⟩

lemma MWfeed_post : ∀ (evs : List Ev), evs.all Ev.okInner = true →
    ∀ (t v : String) (l : List String) (c : Bool),
    ∃ c2, MWfeed ⟨t, some v, l, c, []⟩ evs = ⟨t, some v, l ++ reserialize evs, c2, []⟩ := by
  intro evs
  induction evs with
  | nil =>
    intro _ t v l c
    exact ⟨c, by simp [MWfeed, reserialize]⟩
  | cons e es ih =>
    intro hok t v l c
    simp only [List.all_cons, Bool.and_eq_true] at hok
    obtain ⟨c1, h1⟩ := MWstep_inner t v l c e hok.1
    obtain ⟨c2, h2⟩ := ih hok.2 t v (l ++ [serializeEv e]) c1
    refine ⟨c2, ?_⟩
    rw [MWfeed_cons, h1, h2]
    simp [reserialize]

lemma MWstep_pre (t : String) (l : List String) (e : Ev) (he : e.okPre = true) :
    MWstep ⟨t, none, l, false, []⟩ e = ⟨t, none, l ++ [serializeEv e], false, []⟩ := by
  cases e with
  | start tag a =>
    have h1 : tag ≠ "page" ∧ tag ≠ "id" := by
      simpa [Ev.okPre, Bool.and_eq_true] using he
    simp [MWstep, handle_starttag, h1.1, h1.2, serializeEv]
  | text d =>
    simp [MWstep, handle_data, serializeEv]
  | stop tag =>
    have htag : tag ≠ "page" := by simpa [Ev.okPre] using he
    by_cases hid : tag = "id"
    · subst hid
      simp [MWstep, handle_endtag, htag, serializeEv]
    · simp [MWstep, handle_endtag, htag, hid, serializeEv]

lemma MWfeed_pre : ∀ (evs : List Ev), evs.all Ev.okPre = true →
    ∀ (t : String) (l : List String),
    MWfeed ⟨t, none, l, false, []⟩ evs = ⟨t, none, l ++ reserialize evs, false, []⟩ := by
  intro evs
  induction evs with
  | nil =>
    intro _ t l
    simp [MWfeed, reserialize]
  | cons e es ih =>
    intro hok t l
    simp only [List.all_cons, Bool.and_eq_true] at hok
    rw [MWfeed_cons, MWstep_pre t l e hok.1, ih hok.2 t (l ++ [serializeEv e])]
    simp [reserialize]

lemma MWfeed_page (p : Page) (hp : p.Wf) (s : MWState) (hs : s.final_lines = []) :
    ∃ c2, MWfeed s p.events =
      ⟨s.true_id, some p.id, reserialize p.events, c2,
        if p.id = s.true_id then reserialize p.events else []⟩ := by
  obtain ⟨hpre, hpost⟩ := hp
  obtain ⟨t, o, l0, c0, f⟩ := s
  simp only at hs
  subst hs
  have hev : p.events = Ev.start "page" p.attrs ::
      (p.pre ++ (Ev.start "id" p.idAttrs :: Ev.text p.id :: Ev.stop "id" ::
        (p.post ++ [Ev.stop "page"]))) := rfl
  have h1 : MWstep ⟨t, o, l0, c0, []⟩ (Ev.start "page" p.attrs)
      = ⟨t, none, [serializeStart "page" p.attrs], false, []⟩ := by
    simp [MWstep, handle_starttag]
  have h3 : MWstep ⟨t, none, [serializeStart "page" p.attrs] ++ reserialize p.pre, false, []⟩
      (Ev.start "id" p.idAttrs)
      = ⟨t, none, [serializeStart "page" p.attrs] ++ reserialize p.pre
          ++ [serializeStart "id" p.idAttrs], true, []⟩ := by
    simp [MWstep, handle_starttag]
  have h4 : MWstep ⟨t, none, [serializeStart "page" p.attrs] ++ reserialize p.pre
        ++ [serializeStart "id" p.idAttrs], true, []⟩ (Ev.text p.id)
      = ⟨t, some p.id, [serializeStart "page" p.attrs] ++ reserialize p.pre
          ++ [serializeStart "id" p.idAttrs] ++ [p.id], true, []⟩ := by
    simp [MWstep, handle_data]
  have h5 : MWstep ⟨t, some p.id, [serializeStart "page" p.attrs] ++ reserialize p.pre
        ++ [serializeStart "id" p.idAttrs] ++ [p.id], true, []⟩ (Ev.stop "id")
      = ⟨t, some p.id, [serializeStart "page" p.attrs] ++ reserialize p.pre
          ++ [serializeStart "id" p.idAttrs] ++ [p.id] ++ ["</" ++ "id" ++ ">"], false, []⟩ := by
    simp [MWstep, handle_endtag]
  obtain ⟨c2, h6⟩ := MWfeed_post p.post hpost t p.id
    ([serializeStart "page" p.attrs] ++ reserialize p.pre
      ++ [serializeStart "id" p.idAttrs] ++ [p.id] ++ ["</" ++ "id" ++ ">"]) false
  have h7 : MWstep ⟨t, some p.id, [serializeStart "page" p.attrs] ++ reserialize p.pre
        ++ [serializeStart "id" p.idAttrs] ++ [p.id] ++ ["</" ++ "id" ++ ">"]
        ++ reserialize p.post, c2, []⟩ (Ev.stop "page")
      = ⟨t, some p.id, [serializeStart "page" p.attrs] ++ reserialize p.pre
          ++ [serializeStart "id" p.idAttrs] ++ [p.id] ++ ["</" ++ "id" ++ ">"]
          ++ reserialize p.post ++ ["</" ++ "page" ++ ">"], c2,
          if p.id = t then [serializeStart "page" p.attrs] ++ reserialize p.pre
            ++ [serializeStart "id" p.idAttrs] ++ [p.id] ++ ["</" ++ "id" ++ ">"]
            ++ reserialize p.post ++ ["</" ++ "page" ++ ">"] else []⟩ := by
    by_cases hm : p.id = t
    · simp [MWstep, handle_endtag, pyStr, hm]
    · simp [MWstep, handle_endtag, pyStr, hm]
  refine ⟨c2, ?_⟩
  rw [hev, MWfeed_cons, h1, MWfeed_append, MWfeed_pre p.pre hpre t _, MWfeed_cons, h3,
    MWfeed_cons, h4, MWfeed_cons, h5, MWfeed_append, h6, MWfeed_cons, h7, MWfeed_nil]
  have hL : [serializeStart "page" p.attrs] ++ reserialize p.pre
      ++ [serializeStart "id" p.idAttrs] ++ [p.id] ++ ["</" ++ "id" ++ ">"]
      ++ reserialize p.post ++ ["</" ++ "page" ++ ">"] = reserialize p.events := by
    rw [hev]
    simp [reserialize, serializeEv]
  rw [hL, ← hev]

lemma reserialize_events_ne_nil (p : Page) : reserialize p.events ≠ [] := by
  simp [reserialize, Page.events]

lemma MWfeed_block : ∀ (ps : List Page) (k : Nat) (hk : k < ps.length),
    (∀ p ∈ ps, p.Wf) →
    (∀ j (hj : j < ps.length), j < k → (ps.get ⟨j, hj⟩).id ≠ (ps.get ⟨k, hk⟩).id) →
    ∀ s : MWState, s.final_lines = [] → s.true_id = (ps.get ⟨k, hk⟩).id →
    (MWfeed s (blockEvents ps)).final_lines = reserialize ((ps.get ⟨k, hk⟩).events) := by
  intro ps
  induction ps with
  | nil =>
    intro k hk
    exact absurd hk (by simp)
  | cons p rest ih =>
    intro k hk hwf hbef s hs ht
    have hblock : blockEvents (p :: rest) = p.events ++ blockEvents rest := by
      simp [blockEvents]
    obtain ⟨c2, hc2⟩ := MWfeed_page p (hwf p (List.mem_cons_self p rest)) s hs
    rw [hblock, MWfeed_append, hc2]
    cases k with
    | zero =>
      have ht' : p.id = s.true_id := by
        rw [ht]
        rfl
      rw [if_pos ht']
      rw [MWfeed_done (blockEvents rest) _ (by simpa using reserialize_events_ne_nil p)]
      rfl
    | succ k1 =>
      have hk1 : k1 < rest.length := by simpa using Nat.lt_of_succ_lt_succ hk
      have hne : ¬ p.id = s.true_id := by
        have h0 := hbef 0 (by simp) (Nat.succ_pos k1)
        rw [ht]
        simpa using h0
      rw [if_neg hne]
      have hwf1 : ∀ q ∈ rest, q.Wf := fun q hq => hwf q (List.mem_cons_of_mem p hq)
      have hbef1 : ∀ j (hj : j < rest.length), j < k1 →
          (rest.get ⟨j, hj⟩).id ≠ (rest.get ⟨k1, hk1⟩).id := by
        intro j hj hjk
        have := hbef (j + 1) (by simpa using Nat.succ_lt_succ hj) (Nat.succ_lt_succ hjk)
        simpa using this
      have := ih k1 hk1 hwf1 hbef1
        ⟨s.true_id, some p.id, reserialize p.events, c2, []⟩ rfl (by simpa using ht)
      simpa using this

/-- C1: scanning a decompressed block made of N concatenated well-formed
tagged documents with pairwise-distinct identifiers, with the scanner
keyed to the k-th document's identifier, yields exactly the k-th
document's re-serialized lines (tag names and attributes preserved) and
none of the text of the other documents. -/
theorem scanner_extracts_exactly_target_page (ps : List Page) (k : Nat) (hk : k < ps.length)
    (hwf : ∀ p ∈ ps, p.Wf) (hnd : (ps.map Page.id).Nodup) :
    (MWfeed (MWinit ((ps.get ⟨k, hk⟩).id)) (blockEvents ps)).final_lines
      = reserialize ((ps.get ⟨k, hk⟩).events) := by
  apply MWfeed_block ps k hk hwf ?_ _ rfl rfl
  intro j hj hjk heq
  have hmap : (ps.map Page.id).get ⟨j, by simpa using hj⟩
      = (ps.map Page.id).get ⟨k, by simpa using hk⟩ := by
    simpa using heq
  have := (List.Nodup.get_inj_iff hnd).mp hmap
  have : j = k := by simpa using congrArg Fin.val this
  omega

/-- A concrete well-formed document: title `A`, identifier `100`. -/
def pageA : Page :=
  { attrs := [], pre := [Ev.start "title" [], Ev.text "A", Ev.stop "title"],
    idAttrs := [], id := "100", post := [] }

/-- A concrete well-formed document: identifier `200`, with a later
revision `id` field (`999`) nested in its body. -/
def pageB : Page :=
  { attrs := [("k", "v")], pre := [Ev.start "title" [], Ev.text "B", Ev.stop "title"],
    idAttrs := [], id := "200",
    post := [Ev.start "revision" [], Ev.start "id" [], Ev.text "999", Ev.stop "id",
      Ev.stop "revision"] }

/-- A concrete well-formed document: identifier `300`. -/
def pageC : Page :=
  { attrs := [], pre := [], idAttrs := [], id := "300", post := [Ev.text "body"] }

/-- Witness for C1: a three-document block, scanner keyed to the middle
document's identifier. -/
theorem scanner_extracts_exactly_target_page_witness :
    (MWfeed (MWinit (([pageA, pageB, pageC].get ⟨1, by decide⟩).id))
        (blockEvents [pageA, pageB, pageC])).final_lines
      = reserialize (([pageA, pageB, pageC].get ⟨1, by decide⟩).events) :=
  scanner_extracts_exactly_target_page [pageA, pageB, pageC] 1 (by decide) (by decide)
    (by decide)

/-- C9: scanning two concatenated well-formed documents with the scanner
keyed to `t`, where the first document does not match: the observed
identifier after the scan is the second document's first `id`-field text
(its later `id` fields, e.g. a revision id, never overwrite it, and the
first document's identifier was discarded by the document-boundary start
tag of the second); the scan succeeds exactly when that observed
identifier equals the target as a string. -/
theorem first_identifier_is_authoritative (p q : Page) (hp : p.Wf) (hq : q.Wf)
    (t : String) (hne : p.id ≠ t) :
    (MWfeed (MWinit t) (blockEvents [p, q])).observed_id = some q.id ∧
    ((MWfeed (MWinit t) (blockEvents [p, q])).final_lines ≠ [] ↔ q.id = t) := by
  have hblock : blockEvents [p, q] = p.events ++ (q.events ++ []) := by
    simp [blockEvents]
  obtain ⟨c2, hc2⟩ := MWfeed_page p hp (MWinit t) rfl
  have hne' : ¬ p.id = (MWinit t).true_id := hne
  rw [hblock, MWfeed_append, hc2, if_neg hne']
  obtain ⟨c3, hc3⟩ := MWfeed_page q hq
    ⟨(MWinit t).true_id, some p.id, reserialize p.events, c2, []⟩ rfl
  rw [MWfeed_append, hc3, MWfeed_nil]
  refine ⟨rfl, ?_⟩
  by_cases hm : q.id = t
  · simp [MWinit, hm, reserialize_events_ne_nil q]
  · simp [MWinit, hm]

/-- Witness for C9: document `pageA` (id `100`) followed by `pageB`
(id `200`, containing a nested revision id `999`), scanner keyed to
`200`. -/
theorem first_identifier_is_authoritative_witness :
    (MWfeed (MWinit "200") (blockEvents [pageA, pageB])).observed_id = some pageB.id ∧
    ((MWfeed (MWinit "200") (blockEvents [pageA, pageB])).final_lines ≠ [] ↔
      pageB.id = "200") :=
  first_identifier_is_authoritative pageA pageB (by decide) (by decide) "200" (by decide)

/- ============================================================ -/
/- C2: retrieval on a block with no matching document -/
/- ============================================================ -/

/-- A one-row index for the title `U` whose block holds no document with
identifier `7`. -/
def rowsU : List Row := [{ start_index := 0, page_id := "7", title := "U", end_index := 3 }]

/-- Counterexample to C2 as stated: the indexed byte range of title `U`
decompresses to a block whose only document has identifier `100`, not the
target `7`; `retrieve_article_xml` nevertheless returns the empty string
as a successful result instead of reporting a not-found error. -/
theorem retrieve_scan_miss_counterexample :
    retrieve_article_xml (fun _ => "x") (fun _ => blockEvents [pageA]) [1, 2, 3] rowsU "U"
      = .ok "" := by
  rfl

/-- C2 (amended): a title absent from the index raises
`ArticleNotFoundError`; but for a title whose block contains no document
matching the row's identifier, `retrieve_article_xml` returns the empty
string as a normal result — the scanner never sets `final_lines`, and the
join of no lines is returned (never a partial document, and never an
error). -/
theorem retrieve_not_found_or_empty (decompress : List Nat → String)
    (tokenize : String → List Ev) (archive : List Nat) (rows : List Row) (title : String) :
    (rows.filter (fun q => q.title = title) = [] →
      retrieve_article_xml decompress tokenize archive rows title = .error (.notFound title)) ∧
    (∀ r rest b, rows.filter (fun q => q.title = title) = r :: rest →
      extract_indexed_range decompress archive r.start_index r.end_index = .ok b →
      (MWfeed (MWinit r.page_id) (tokenize b)).final_lines = [] →
      retrieve_article_xml decompress tokenize archive rows title = .ok "") := by
  constructor
  · intro h
    simp [retrieve_article_xml, h]
  · intro r rest b hf hx hscan
    simp [retrieve_article_xml, hf, hx, hscan, String.join]

/-- Witness for the amended C2, at a different concrete index: title `T`,
row identifier `42`, block holding only the document with identifier
`300`. -/
theorem retrieve_not_found_or_empty_witness :
    retrieve_article_xml (fun _ => "block") (fun _ => blockEvents [pageC]) [7, 7]
      [{ start_index := 0, page_id := "42", title := "T", end_index := 2 }] "T" = .ok "" :=
  (retrieve_not_found_or_empty (fun _ => "block") (fun _ => blockEvents [pageC]) [7, 7]
      [{ start_index := 0, page_id := "42", title := "T", end_index := 2 }] "T").2
    { start_index := 0, page_id := "42", title := "T", end_index := 2 } [] "block"
    (by rfl) (by rfl) (by rfl)

/- ============================================================ -/
/- Crawl engine lemmas and claims C3, C4, C5, C8 -/
/- ============================================================ -/

lemma verdict_true_iff (o : Option (Option Bool)) :
    ((o.getD none).getD false) = true ↔ o = some (some true) := by
  rcases o with _ | o
  · simp
  · rcases o with _ | b
    · simp
    · rcases b <;> simp


lemma processLink_cached_true {α ν γ ρ : Type} (env : CrawlEnv α ν γ ρ) (cur : ν)
    (s : LoopState ν γ ρ) (l : α) (c : ν)
    (hrc : env.retrieveClass s.cache l = some true) (hcn : s.childNode = some c) :
    processLink env cur s l
      = .ok { s with edges := s.edges ++ [(cur, c)], queue := s.queue ++ [c] } := by
  simp [processLink, hrc, hcn]

lemma processLink_cached_true_unbound {α ν γ ρ : Type} (env : CrawlEnv α ν γ ρ) (cur : ν)
    (s : LoopState ν γ ρ) (l : α)
    (hrc : env.retrieveClass s.cache l = some true) (hcn : s.childNode = none) :
    processLink env cur s l = .error () := by
  simp [processLink, hrc, hcn]

lemma processLink_cached_false {α ν γ ρ : Type} (env : CrawlEnv α ν γ ρ) (cur : ν)
    (s : LoopState ν γ ρ) (l : α)
    (hrc : env.retrieveClass s.cache l = some false) :
    processLink env cur s l = .ok s := by
  simp [processLink, hrc]

lemma processLink_fresh_pos {α ν γ ρ : Type} (env : CrawlEnv α ν γ ρ) (cur : ν)
    (s : LoopState ν γ ρ) (l : α)
    (hrc : env.retrieveClass s.cache l = none)
    (hv : (((env.retrieveOutcome s.cache l).2.getD none).getD false) = true) :
    processLink env cur s l
      = .ok { cache := (env.retrieveOutcome s.cache l).1,
              graph := (env.addNode s.graph l).1,
              counter := s.counter + 1,
              queue := s.queue ++ [(env.addNode s.graph l).2],
              edges := s.edges ++ [(cur, (env.addNode s.graph l).2)],
              childNode := some (env.addNode s.graph l).2 } := by
  simp [processLink, hrc, hv]

lemma processLink_fresh_neg {α ν γ ρ : Type} (env : CrawlEnv α ν γ ρ) (cur : ν)
    (s : LoopState ν γ ρ) (l : α)
    (hrc : env.retrieveClass s.cache l = none)
    (hv : (((env.retrieveOutcome s.cache l).2.getD none).getD false) = false) :
    processLink env cur s l = .ok { s with cache := (env.retrieveOutcome s.cache l).1 } := by
  simp [processLink, hrc, hv]

lemma processLink_counter {α ν γ ρ : Type} (env : CrawlEnv α ν γ ρ) (cur : ν)
    (s : LoopState ν γ ρ) (l : α) (s2 : LoopState ν γ ρ)
    (h : processLink env cur s l = .ok s2) :
    s.counter ≤ s2.counter ∧
    (s2.counter = s.counter + 1 ↔
      env.retrieveClass s.cache l = none ∧
        (env.retrieveOutcome s.cache l).2 = some (some true)) ∧
    (env.retrieveClass s.cache l ≠ none → s2.counter = s.counter) := by
  cases hrc : env.retrieveClass s.cache l with
  | some v =>
    cases v with
    | true =>
      cases hcn : s.childNode with
      | none =>
        rw [processLink_cached_true_unbound env cur s l hrc hcn] at h
        exact absurd h (by simp)
      | some c =>
        rw [processLink_cached_true env cur s l c hrc hcn] at h
        obtain rfl := Except.ok.inj h
        simp [hrc]
    | false =>
      rw [processLink_cached_false env cur s l hrc] at h
      obtain rfl := Except.ok.inj h
      simp [hrc]
  | none =>
    cases hv : (((env.retrieveOutcome s.cache l).2.getD none).getD false) with
    | true =>
      rw [processLink_fresh_pos env cur s l hrc hv] at h
      obtain rfl := Except.ok.inj h
      refine ⟨by simp, ?_, by simp⟩
      simp [(verdict_true_iff _).mp hv]
    | false =>
      rw [processLink_fresh_neg env cur s l hrc hv] at h
      obtain rfl := Except.ok.inj h
      have hne : (env.retrieveOutcome s.cache l).2 ≠ some (some true) := by
        intro hc
        rw [(verdict_true_iff _).mpr hc] at hv
        cases hv
      refine ⟨by simp, ?_, by simp⟩
      constructor
      · intro hcount
        simp only [] at hcount
        omega
      · intro hand
        exact absurd hand.2 hne

lemma processLinks_nil {α ν γ ρ : Type} (env : CrawlEnv α ν γ ρ) (cur : ν)
    (s : LoopState ν γ ρ) : processLinks env cur s [] = .ok s := rfl

lemma processLinks_cons {α ν γ ρ : Type} (env : CrawlEnv α ν γ ρ) (cur : ν)
    (s : LoopState ν γ ρ) (l : α) (ls : List α) :
    processLinks env cur s (l :: ls)
      = (processLink env cur s l).bind (fun s1 => processLinks env cur s1 ls) := by
  simp [processLinks, List.foldlM_cons]
  rfl

lemma processLinks_counter {α ν γ ρ : Type} (env : CrawlEnv α ν γ ρ) (cur : ν) :
    ∀ (ls : List α) (s s2 : LoopState ν γ ρ),
    processLinks env cur s ls = .ok s2 → s.counter ≤ s2.counter := by
  intro ls
  induction ls with
  | nil =>
    intro s s2 h
    rw [processLinks_nil] at h
    obtain rfl := Except.ok.inj h
    exact le_refl _
  | cons l ls ih =>
    intro s s2 h
    rw [processLinks_cons] at h
    cases h1 : processLink env cur s l with
    | error e => rw [h1] at h; exact absurd h (by simp [Except.bind])
    | ok s1 =>
      rw [h1] at h
      simp only [Except.bind] at h
      exact le_trans (processLink_counter env cur s l s1 h1).1 (ih s1 s2 h)

lemma runLoop_zero {α ν γ ρ : Type} (env : CrawlEnv α ν γ ρ) (s : LoopState ν γ ρ)
    (cont : Bool) : runLoop env 0 s cont = .ok (s, cont) := rfl


lemma runLoop_counter {α ν γ ρ : Type} (env : CrawlEnv α ν γ ρ) :
    ∀ (fuel : Nat) (s : LoopState ν γ ρ) (cont : Bool) (s2 : LoopState ν γ ρ) (cont2 : Bool),
    runLoop env fuel s cont = .ok (s2, cont2) → s.counter ≤ s2.counter := by
  intro fuel
  induction fuel with
  | zero =>
    intro s cont s2 cont2 h
    rw [runLoop_zero] at h
    obtain h2 := Except.ok.inj h
    obtain ⟨rfl, rfl⟩ := Prod.mk.injEq _ _ _ _ ▸ h2
    exact le_refl _
  | succ n ih =>
    intro s cont s2 cont2 h
    obtain ⟨ca, g, co, q, ed, ch⟩ := s
    cases q with
    | nil =>
      rw [show runLoop env (n + 1) ⟨ca, g, co, [], ed, ch⟩ cont
          = .ok (⟨ca, g, co, [], ed, ch⟩, cont) from rfl] at h
      obtain h2 := Except.ok.inj h
      obtain ⟨rfl, rfl⟩ := Prod.mk.injEq _ _ _ _ ▸ h2
      exact le_refl _
    | cons n1 rest =>
      cases cont with
      | false =>
        rw [show runLoop env (n + 1) ⟨ca, g, co, n1 :: rest, ed, ch⟩ false
            = .ok (⟨ca, g, co, n1 :: rest, ed, ch⟩, false) from rfl] at h
        obtain h2 := Except.ok.inj h
        obtain ⟨rfl, rfl⟩ := Prod.mk.injEq _ _ _ _ ▸ h2
        exact le_refl _
      | true =>
        have hrw : runLoop env (n + 1) ⟨ca, g, co, n1 :: rest, ed, ch⟩ true
            = (match env.links n1 with
               | none => runLoop env n ⟨ca, g, co, rest, ed, ch⟩ true
               | some ls =>
                 match processLinks env n1 ⟨ca, g, co, rest, ed, ch⟩ ls with
                 | .error e => .error e
                 | .ok s3 => runLoop env n s3 (decide (s3.counter < 150))) := rfl
        rw [hrw] at h
        cases hl : env.links n1 with
        | none =>
          rw [hl] at h
          exact ih ⟨ca, g, co, rest, ed, ch⟩ true s2 cont2 h
        | some ls =>
          rw [hl] at h
          replace h : (match processLinks env n1
              (⟨ca, g, co, rest, ed, ch⟩ : LoopState ν γ ρ) ls with
            | Except.error e => Except.error e
            | Except.ok s3 => runLoop env n s3 (decide (s3.counter < 150)))
              = Except.ok (s2, cont2) := h
          cases hpl : processLinks env n1 ⟨ca, g, co, rest, ed, ch⟩ ls with
          | error e =>
            rw [hpl] at h
            exact Except.noConfusion h
          | ok s3 =>
            rw [hpl] at h
            have h1 : co ≤ s3.counter :=
              processLinks_counter env n1 ls ⟨ca, g, co, rest, ed, ch⟩ s3 hpl
            exact le_trans h1 (ih s3 (decide (s3.counter < 150)) s2 cont2 h)

/-- C4: the acceptance counter never decreases — per processed link and
over the whole crawl loop — and a completed link step increments it by
exactly 1 if and only if the link had no cached verdict and the freshly
derived classification (the cache lookup performed right after the
retrieval) is positive; a link served from the cache leaves the counter
unchanged. -/
theorem acceptance_counter_increment_spec {α ν γ ρ : Type} (env : CrawlEnv α ν γ ρ) :
    (∀ (cur : ν) (s : LoopState ν γ ρ) (l : α) (s2 : LoopState ν γ ρ),
      processLink env cur s l = .ok s2 →
      s.counter ≤ s2.counter ∧
      (s2.counter = s.counter + 1 ↔
        env.retrieveClass s.cache l = none ∧
          (env.retrieveOutcome s.cache l).2 = some (some true)) ∧
      (env.retrieveClass s.cache l ≠ none → s2.counter = s.counter)) ∧
    (∀ (fuel : Nat) (s : LoopState ν γ ρ) (cont : Bool) (s2 : LoopState ν γ ρ) (cont2 : Bool),
      runLoop env fuel s cont = .ok (s2, cont2) → s.counter ≤ s2.counter) :=
  ⟨fun cur s l s2 h => processLink_counter env cur s l s2 h,
   fun fuel s cont s2 cont2 h => runLoop_counter env fuel s cont s2 cont2 h⟩

/-- A concrete environment for the counter witness: no link has a cached
verdict, every fresh classification is positive. -/
def envFresh : CrawlEnv Nat Nat Unit Unit :=
  { retrieveClass := fun _ _ => none,
    retrieveOutcome := fun u _ => (u, some (some true)),
    addNode := fun u a => (u, a),
    links := fun _ => none }

/-- A concrete loop state with counter 3 and empty queue. -/
def st4 : LoopState Nat Unit Unit :=
  { cache := (), graph := (), counter := 3, queue := [], edges := [], childNode := none }

/-- The state reached from `st4` after processing the fresh-positive
link 7 with dequeued node 0. -/
def st4b : LoopState Nat Unit Unit :=
  { cache := (), graph := (), counter := 4, queue := [7], edges := [(0, 7)],
    childNode := some 7 }

/-- Witness for C4: processing the fresh-positive link 7 from `st4`
yields `st4b` with counter 4, and the theorem's increment
characterization holds there. -/
theorem acceptance_counter_increment_spec_witness :
    st4.counter ≤ st4b.counter ∧ st4b.counter = st4.counter + 1 :=
  ⟨((acceptance_counter_increment_spec envFresh).1 0 st4 7 st4b rfl).1,
   ((acceptance_counter_increment_spec envFresh).1 0 st4 7 st4b rfl).2.1.mpr ⟨rfl, rfl⟩⟩

/-- C5: a link whose retrieval/classification block raises (modelled by
`retrieveOutcome` returning `none`) is treated as classified negative:
the per-link step succeeds (the bare `except` swallows the error, so the
loop is never aborted), the state is unchanged except for whatever the
failed retrieval did to the cache, and the loop goes on to the remaining
links. -/
theorem per_link_failure_fail_open {α ν γ ρ : Type} (env : CrawlEnv α ν γ ρ) (cur : ν)
    (s : LoopState ν γ ρ) (l : α) (rest : List α)
    (hstored : env.retrieveClass s.cache l = none)
    (hexc : (env.retrieveOutcome s.cache l).2 = none) :
    processLink env cur s l = .ok { s with cache := (env.retrieveOutcome s.cache l).1 } ∧
    processLinks env cur s (l :: rest)
      = processLinks env cur { s with cache := (env.retrieveOutcome s.cache l).1 } rest := by
  have h1 : processLink env cur s l = .ok { s with cache := (env.retrieveOutcome s.cache l).1 } :=
    processLink_fresh_neg env cur s l hstored (by simp [hexc])
  refine ⟨h1, ?_⟩
  rw [processLinks_cons, h1]
  rfl

/-- A concrete environment for the fail-open witness: no cached verdicts,
every retrieval raises. -/
def envRaise : CrawlEnv Nat Nat Unit Unit :=
  { retrieveClass := fun _ _ => none,
    retrieveOutcome := fun u _ => (u, none),
    addNode := fun u a => (u, a),
    links := fun _ => none }

/-- A concrete loop state for the fail-open witness. -/
def st5 : LoopState Nat Unit Unit :=
  { cache := (), graph := (), counter := 2, queue := [], edges := [], childNode := none }

/-- Witness for C5: link 7 raises during retrieval; the step returns the
unchanged state and the loop proceeds to link 9. -/
theorem per_link_failure_fail_open_witness :
    processLink envRaise 0 st5 7 = .ok st5 ∧
    processLinks envRaise 0 st5 [7, 9] = processLinks envRaise 0 st5 [9] :=
  per_link_failure_fail_open envRaise 0 st5 7 [9] rfl rfl

/-- The environment of the C3 failing input: every link has a cached
positive verdict. -/
def envCachedPos : CrawlEnv Nat Nat Unit Unit :=
  { retrieveClass := fun _ _ => some true,
    retrieveOutcome := fun u _ => (u, some (some true)),
    addNode := fun u a => (u, a),
    links := fun _ => none }

/-- The C3 failing state: no fresh-positive link has been processed yet,
so the Python variable `child_node` is still unbound. -/
def st3 : LoopState Nat Unit Unit :=
  { cache := (), graph := (), counter := 1, queue := [], edges := [], childNode := none }

/-- C3 failing-input evaluation: a link with a cached positive verdict
makes the loop body evaluate the unbound `child_node` (a `NameError`,
aborting the crawl) instead of registering an edge to the link's own
node; and when `child_node` is bound from an earlier fresh-positive link
(here node 9), the edge and the enqueued node are the stale node 9, not
link 5's node. -/
theorem cached_positive_link_uses_unbound_child_node :
    processLink envCachedPos 0 st3 5 = .error () ∧
    processLink envCachedPos 0 { st3 with childNode := some 9 } 5
      = .ok { st3 with childNode := some 9, edges := [(0, 9)], queue := [9] } :=
  ⟨rfl, rfl⟩

/-- C8 failing-input evaluation: with three configured seeds, the seed
loop `for artist in [SEED_LIST[0:2]]` performs exactly one iteration,
whose loop variable is the list of the first two seeds; the queue ends up
with a single entry built from that list, not three entries in seed
order. -/
theorem seed_loop_runs_single_iteration :
    seedPhase (fun l => l) ["A", "B", "C"] = [["A", "B"]] ∧
    (seedPhase (fun l => l) ["A", "B", "C"]).length = 1 :=
  ⟨rfl, rfl⟩

/- ============================================================ -/
/- C6 and C7: byte ranges and index end offsets -/
/- ============================================================ -/

/-- C6 failing-input evaluation: with real offsets the extraction reads
exactly `end_index - start_index` bytes after skipping `start_index`
(here bytes 6 and 7 of the archive, two bytes, decompressed); but with
the read-to-end sentinel `end_index = -1` and `start_index = 1`, the
second read is `read(-2)`, which raises `ValueError` instead of reading
to end-of-file. -/
theorem extract_indexed_range_sentinel_fails :
    extract_indexed_range (fun l => toString l.length) [5, 6, 7, 8] 1 3 = .ok "2" ∧
    extract_indexed_range (fun l => toString l.length) [5, 6, 7, 8] 1 (-1) = .error () :=
  ⟨rfl, rfl⟩

/-- The index rows of the C7 failing input: two blocks at byte offsets
615 and 1000 (as the strings the listing parse produces). -/
def rows7 : List (String × String × String) := [("615", "1", "A"), ("1000", "2", "B")]

/-- C7 failing-input evaluation: the builder sorts the offset strings
lexicographically, so `"1000" < "615"`; the entry at offset 615 receives
the read-to-end sentinel although block 1000 numerically follows it, and
the entry at offset 1000 receives end offset 615 — numerically smaller
than its start offset, violating `start_offset < end_offset`. -/
theorem index_end_offset_uses_lexicographic_order :
    build_end_offsets rows7
      = [("615", "1", "A", none), ("1000", "2", "B", some "615")] ∧
    ¬ ((1000 : Nat) < 615) := by
  constructor
  · rfl
  · omega
